import Mathlib

/-!
Shallow embedding of the folderSize disk-usage explorer (src/main.rs) and
verification of its specified properties.

The filesystem is modelled as a tree. A directory's attempted listing is
`Option (List FsChild)` (`none` means `fs::read_dir` fails); each child
carries its name and `Option FsNode` (`none` means reading the directory
entry or its metadata fails). Machine `u64` sizes are modelled as `Nat`
(the Rust code uses unchecked `+=` on `u64`, and the aggregate of a real
tree cannot overflow 64 bits).
-/

namespace FolderSize

/-- Rust `enum EntryType { File, Directory }` (main.rs lines 13-17). -/
inductive EntryType where
  | File
  | Directory
deriving DecidableEq, Repr

/-- Discriminant of an `EntryType` variant. The derived Rust `Ord` follows
declaration order, so `File` (0) is less than `Directory` (1). -/
def EntryType.toNat : EntryType → Nat
  | .File => 0
  | .Directory => 1

/-- The derived `Ord::cmp` on `EntryType`: compares discriminants. -/
def cmpEntryType (a b : EntryType) : Ordering :=
  compare a.toNat b.toNat

/-- Rust `struct EntryInfo` (main.rs lines 33-37). `path` is the string
form of the child's path. -/
structure EntryInfo where
  entry_type : EntryType
  path : String
  size : Option Nat
deriving DecidableEq, Repr

instance : Inhabited EntryInfo := ⟨⟨.File, "", none⟩⟩

/-- Error kinds the program produces: ordinary I/O failures, and the
`io::Error::new(Other, "Unsupported entry type")` of `get_entry_info`. -/
inductive IOErr where
  | ioError
  | unsupported
deriving DecidableEq, Repr

/-- A filesystem node: a file with its metadata length, a directory with
its attempted listing (`none` when `read_dir` fails), or an entry that is
neither a file nor a directory (device node, socket, ...). -/
inductive FsNode where
  | file (size : Nat)
  | dir (listing : Option (List (String × Option FsNode)))
  | other

/-- One immediate child as the traversal sees it: its name, and the result
of reading its dir-entry/metadata (`none` means the read fails). -/
abbrev FsChild := String × Option FsNode

/-- Body of `get_directory_size` (main.rs lines 68-82) over the children of
an already-listed directory: files add `metadata.len()`, directories add
the recursive call (inlined here: a `none` listing fails, a `some sub`
listing recurses), anything else is skipped; the first failed child read
aborts with an error. -/
def dirSizeGo : List FsChild → Except IOErr Nat
  | [] => .ok 0
  | (_, none) :: _ => .error .ioError
  | (_, some (.file sz)) :: rest =>
      match dirSizeGo rest with
      | .ok r => .ok (sz + r)
      | .error e => .error e
  | (_, some (.dir none)) :: _ => .error .ioError
  | (_, some (.dir (some sub))) :: rest =>
      match dirSizeGo sub with
      | .error e => .error e
      | .ok s =>
        match dirSizeGo rest with
        | .ok r => .ok (s + r)
        | .error e => .error e
  | (_, some .other) :: rest => dirSizeGo rest

/-- Function `get_directory_size` (main.rs lines 68-82): `read_dir` on the
node, then the loop over its children. On a non-directory node or an
unlistable directory, `read_dir` fails. -/
def get_directory_size : FsNode → Except IOErr Nat
  | .dir (some children) => dirSizeGo children
  | _ => .error .ioError

/-- The `metadata.len()` of a node (only consulted on the `File` branch). -/
def metaLen : FsNode → Nat
  | .file sz => sz
  | _ => 0

/-- The classification in `get_entry_info` (main.rs lines 42-51):
file, directory, or the "Unsupported entry type" error. -/
def classifyEntry : FsNode → Except IOErr EntryType
  | .file _ => .ok .File
  | .dir _ => .ok .Directory
  | .other => .error .unsupported

/-- Function `get_entry_info` (main.rs lines 39-66): read metadata,
classify, then compute `size` by the three-way `if` of lines 53-59 (whose
`else => None` branch mirrors the source even though classification
already returned the error for unsupported types). -/
def get_entry_info : FsChild → Except IOErr EntryInfo
  | (_, none) => .error .ioError
  | (name, some node) =>
    match classifyEntry node with
    | .error e => .error e
    | .ok et =>
      let sizeRes : Except IOErr (Option Nat) :=
        if et = .File then .ok (some (metaLen node))
        else if et = .Directory then
          match get_directory_size node with
          | .ok n => .ok (some n)
          | .error e => .error e
        else .ok none
      match sizeRes with
      | .error e => .error e
      | .ok sz => .ok ⟨et, name, sz⟩

/-- The collection loop of `get_entries_info` (main.rs lines 87-91):
the first failing child aborts the whole listing. -/
def listEntries : List FsChild → Except IOErr (List EntryInfo)
  | [] => .ok []
  | c :: rest =>
    match get_entry_info c with
    | .error e => .error e
    | .ok e =>
      match listEntries rest with
      | .error e2 => .error e2
      | .ok es => .ok (e :: es)

/-- The closure passed to `sort_by` (main.rs lines 93-99): equal kinds
compare by size descending, via
`cmp(&b.size.unwrap_or(0), &a.size.unwrap_or(0))`; different kinds compare
`a.entry_type` against the constant `EntryType::Directory`. -/
def compareEntries (a b : EntryInfo) : Ordering :=
  if a.entry_type = b.entry_type then
    compare (b.size.getD 0) (a.size.getD 0)
  else
    cmpEntryType a.entry_type .Directory

/-- Rust `slice::sort_by` drives its stable sort solely by
`is_less(a, b) = (compare(a, b) == Ordering::Less)`. -/
def entryIsLess (a b : EntryInfo) : Bool :=
  compareEntries a b == .lt

/-- Take-from-the-left relation of a stable sort driven by `entryIsLess`:
`a` may be placed before `b` exactly when `b` is not strictly less than
`a`. A stable merge sort with this condition is the standard model of
Rust's stable `sort_by`. -/
def entryLe (a b : EntryInfo) : Bool :=
  !(entryIsLess b a)

/-- The sort performed at main.rs line 93: stable sort of the listing. -/
def sortEntries (l : List EntryInfo) : List EntryInfo :=
  l.mergeSort entryLe

/-- Function `get_entries_info` (main.rs lines 84-102): list the children,
then sort the collected entries. -/
def get_entries_info : FsNode → Except IOErr (List EntryInfo)
  | .dir (some children) =>
    match listEntries children with
    | .error e => .error e
    | .ok es => .ok (sortEntries es)
  | _ => .error .ioError

/-- Reference function written from the spec's words: the total metadata
length of all File descendants of a list of children. -/
def specTotalFileSize : List FsChild → Nat
  | [] => 0
  | (_, none) :: rest => specTotalFileSize rest
  | (_, some (.file sz)) :: rest => sz + specTotalFileSize rest
  | (_, some (.dir none)) :: rest => specTotalFileSize rest
  | (_, some (.dir (some sub))) :: rest => specTotalFileSize sub + specTotalFileSize rest
  | (_, some .other) :: rest => specTotalFileSize rest

/-- Predicate: every directory listing and every dir-entry/metadata read
in the subtree succeeds. -/
def allReadsOk : List FsChild → Bool
  | [] => true
  | (_, none) :: _ => false
  | (_, some (.file _)) :: rest => allReadsOk rest
  | (_, some (.dir none)) :: _ => false
  | (_, some (.dir (some sub))) :: rest => allReadsOk sub && allReadsOk rest
  | (_, some .other) :: rest => allReadsOk rest

/-- The mutable state of the interactive loop in `main` (main.rs lines
188-189): `current_dir` and the `dir_stack` vector (index 0 is the oldest
entry; `Vec::push` appends at the end, `Vec::pop` removes the last). -/
structure NavState where
  current_dir : String
  dir_stack : List String
deriving DecidableEq, Repr

/-- Outcome of one iteration of the `match choice` (main.rs lines 208-227):
either the loop continues with a new state (`invalidMsg` records whether
the "Invalid choice" message was printed), or `break` ends the session. -/
inductive NavResult where
  | cont (s : NavState) (invalidMsg : Bool)
  | quit
deriving DecidableEq, Repr

/-- The `match choice` of `main` (main.rs lines 208-227), given the sorted
listing shown to the user. The source indexes `entries_info[(index-1)]`
only under the range guard, so the default of `getD` is never consulted. -/
def navStep (s : NavState) (listing : List EntryInfo) (choice : Int) : NavResult :=
  if choice = -1 then
    match s.dir_stack.getLast? with
    | some prev => .cont ⟨prev, s.dir_stack.dropLast⟩ false
    | none => .cont s false
  else if choice = 0 then
    .quit
  else if 1 ≤ choice ∧ choice ≤ (listing.length : Int) then
    if (listing.getD (choice - 1).toNat default).entry_type = .Directory then
      .cont ⟨(listing.getD (choice - 1).toNat default).path,
        s.dir_stack ++ [s.current_dir]⟩ false
    else
      .cont s false
  else
    .cont s true

/-! Properties of the comparator and of the relations it induces. -/

lemma ordBeqLtTrue (o : Ordering) : (o == Ordering.lt) = true ↔ o = .lt := by
  cases o <;> decide

lemma ordBeqLtFalse (o : Ordering) : (o == Ordering.lt) = false ↔ o ≠ .lt := by
  cases o <;> decide

lemma entryIsLess_iff (a b : EntryInfo) :
    entryIsLess a b = true ↔
      (a.entry_type = .File ∧ b.entry_type = .Directory) ∨
      (a.entry_type = b.entry_type ∧ b.size.getD 0 < a.size.getD 0) := by
  obtain ⟨ta, pa, sa⟩ := a
  obtain ⟨tb, pb, sb⟩ := b
  cases ta <;> cases tb <;>
    simp [entryIsLess, compareEntries, cmpEntryType, EntryType.toNat, ordBeqLtTrue,
      ordBeqLtFalse, Nat.compare_eq_lt]

lemma entryLe_iff (a b : EntryInfo) :
    entryLe a b = true ↔
      (a.entry_type = .File ∧ b.entry_type = .Directory) ∨
      (a.entry_type = b.entry_type ∧ b.size.getD 0 ≤ a.size.getD 0) := by
  obtain ⟨ta, pa, sa⟩ := a
  obtain ⟨tb, pb, sb⟩ := b
  cases ta <;> cases tb <;>
    simp [entryLe, entryIsLess, compareEntries, cmpEntryType, EntryType.toNat, ordBeqLtTrue,
      ordBeqLtFalse, Nat.compare_eq_lt, Nat.not_lt]

lemma entryLe_trans : ∀ a b c : EntryInfo,
    entryLe a b = true → entryLe b c = true → entryLe a c = true := by
  intro a b c hab hbc
  rw [entryLe_iff] at hab hbc ⊢
  rcases hab with ⟨ha, hb⟩ | ⟨hab2, hs⟩ <;> rcases hbc with ⟨hb2, hc⟩ | ⟨hbc2, hs2⟩ <;>
    simp_all <;> omega

lemma entryLe_total : ∀ a b : EntryInfo, (entryLe a b || entryLe b a) = true := by
  intro a b
  simp only [Bool.or_eq_true, entryLe_iff]
  obtain ⟨ta, pa, sa⟩ := a
  obtain ⟨tb, pb, sb⟩ := b
  cases ta <;> cases tb <;> simp <;> omega

lemma sortEntries_pairwise (xs : List EntryInfo) :
    (sortEntries xs).Pairwise (fun a b => entryLe a b = true) := by
  simpa using List.sorted_mergeSort entryLe_trans entryLe_total xs

lemma sortEntries_perm (xs : List EntryInfo) : (sortEntries xs).Perm xs :=
  List.mergeSort_perm xs entryLe

lemma entryIsLess_asymm : ∀ a b : EntryInfo,
    entryIsLess a b = true → entryIsLess b a = false := by
  intro a b h
  rw [entryIsLess_iff] at h
  cases hba : entryIsLess b a with
  | false => rfl
  | true =>
    rw [entryIsLess_iff] at hba
    obtain ⟨ta, pa, sa⟩ := a
    obtain ⟨tb, pb, sb⟩ := b
    cases ta <;> cases tb <;> simp_all <;> omega

lemma entryIsLess_trans : ∀ a b c : EntryInfo,
    entryIsLess a b = true → entryIsLess b c = true → entryIsLess a c = true := by
  intro a b c hab hbc
  rw [entryIsLess_iff] at hab hbc ⊢
  rcases hab with ⟨ha, hb⟩ | ⟨hab2, hs⟩ <;> rcases hbc with ⟨hb2, hc⟩ | ⟨hbc2, hs2⟩ <;>
    simp_all <;> omega

lemma entryIsLess_false_iff (a b : EntryInfo) :
    entryIsLess a b = false ↔
      ¬((a.entry_type = .File ∧ b.entry_type = .Directory) ∨
        (a.entry_type = b.entry_type ∧ b.size.getD 0 < a.size.getD 0)) := by
  rw [← entryIsLess_iff]
  simp

lemma entryIsLess_incomp_trans : ∀ a b c : EntryInfo,
    entryIsLess a b = false → entryIsLess b a = false →
    entryIsLess b c = false → entryIsLess c b = false →
    entryIsLess a c = false := by
  intro a b c h1 h2 h3 h4
  rw [entryIsLess_false_iff] at h1 h2 h3 h4 ⊢
  obtain ⟨ta, pa, sa⟩ := a
  obtain ⟨tb, pb, sb⟩ := b
  obtain ⟨tc, pc, sc⟩ := c
  cases ta <;> cases tb <;> cases tc <;> simp_all <;> omega

/-! Properties of the aggregation. -/

lemma dirSizeGo_ok_of_allReadsOk : ∀ l : List FsChild,
    allReadsOk l = true → dirSizeGo l = .ok (specTotalFileSize l) := by
  intro l
  induction l using specTotalFileSize.induct <;> intro h <;>
    simp_all [allReadsOk, dirSizeGo, specTotalFileSize]

lemma dirSizeGo_error_of_not_allReadsOk : ∀ l : List FsChild,
    allReadsOk l = false → dirSizeGo l = .error .ioError := by
  intro l
  induction l using specTotalFileSize.induct with
  | case1 => intro h; simp [allReadsOk] at h
  | case2 nm rest => intro h; simp [dirSizeGo]
  | case3 nm sz rest ih =>
    intro h
    rw [allReadsOk] at h
    simp [dirSizeGo, ih h]
  | case4 nm rest => intro h; simp [dirSizeGo]
  | case5 nm sub rest ihsub ihrest =>
    intro h
    rw [allReadsOk] at h
    cases hs : allReadsOk sub with
    | false => simp [dirSizeGo, ihsub hs]
    | true =>
      have hr : allReadsOk rest = false := by simp_all
      simp [dirSizeGo, dirSizeGo_ok_of_allReadsOk sub hs, ihrest hr]
  | case6 nm rest ih =>
    intro h
    rw [allReadsOk] at h
    simp [dirSizeGo, ih h]

/-! Properties of the listing. -/

lemma get_entry_info_size_isSome {c : FsChild} {e : EntryInfo}
    (h : get_entry_info c = .ok e) : e.size.isSome = true := by
  obtain ⟨nm, m⟩ := c
  cases m with
  | none => simp [get_entry_info] at h
  | some node =>
    cases node with
    | file sz =>
      simp [get_entry_info, classifyEntry, metaLen] at h
      simp [← h]
    | dir l =>
      cases hd : get_directory_size (.dir l) with
      | ok n =>
        simp [get_entry_info, classifyEntry, hd] at h
        simp [← h]
      | error e2 =>
        simp [get_entry_info, classifyEntry, hd] at h
    | other => simp [get_entry_info, classifyEntry] at h

lemma listEntries_ok_mem {children : List FsChild} {l : List EntryInfo}
    (h : listEntries children = .ok l) :
    ∀ e ∈ l, e.size.isSome = true := by
  induction children generalizing l with
  | nil =>
    rw [listEntries] at h
    cases h
    simp
  | cons c rest ih =>
    rw [listEntries] at h
    cases hc : get_entry_info c with
    | error e2 => simp [hc] at h
    | ok e1 =>
      rw [hc] at h
      cases hr : listEntries rest with
      | error e2 => simp [hr] at h
      | ok es =>
        rw [hr] at h
        simp only [Except.ok.injEq] at h
        intro e he
        rw [← h] at he
        rcases List.mem_cons.mp he with rfl | he2
        · exact get_entry_info_size_isSome hc
        · exact ih hr e he2

lemma listEntries_ok_child {children : List FsChild} {l : List EntryInfo}
    (h : listEntries children = .ok l) :
    ∀ c ∈ children, ∃ e, get_entry_info c = .ok e := by
  induction children generalizing l with
  | nil => simp
  | cons c rest ih =>
    rw [listEntries] at h
    cases hc : get_entry_info c with
    | error e2 => simp [hc] at h
    | ok e1 =>
      rw [hc] at h
      cases hr : listEntries rest with
      | error e2 => simp [hr] at h
      | ok es =>
        intro c2 hc2
        rcases List.mem_cons.mp hc2 with rfl | h2
        · exact ⟨e1, hc⟩
        · exact ih hr c2 h2

lemma get_entry_info_unsupported (nm : String) :
    get_entry_info (nm, some .other) = .error .unsupported := rfl

lemma get_entries_info_ok {d : FsNode} {l : List EntryInfo}
    (h : get_entries_info d = .ok l) :
    ∃ children es, d = .dir (some children) ∧
      listEntries children = .ok es ∧ l = sortEntries es := by
  cases d with
  | file sz => simp [get_entries_info] at h
  | other => simp [get_entries_info] at h
  | dir o =>
    cases o with
    | none => simp [get_entries_info] at h
    | some children =>
      rw [get_entries_info] at h
      cases he : listEntries children with
      | error e2 => rw [he] at h; simp at h
      | ok es =>
        rw [he] at h
        simp only [Except.ok.injEq] at h
        exact ⟨children, es, rfl, he, h.symm⟩

lemma listing_pair_example :
    get_entries_info (.dir (some [("a", some (.file 5)), ("b", some (.file 7))])) =
      .ok [⟨.File, "b", some 7⟩, ⟨.File, "a", some 5⟩] := by
  have h : listEntries [("a", some (.file 5)), ("b", some (.file 7))] =
      .ok [⟨.File, "a", some 5⟩, ⟨.File, "b", some 7⟩] := rfl
  have hs : sortEntries [(⟨.File, "a", some 5⟩ : EntryInfo), ⟨.File, "b", some 7⟩] =
      [⟨.File, "b", some 7⟩, ⟨.File, "a", some 5⟩] := by
    simp [sortEntries, List.mergeSort, List.merge]
    decide
  rw [get_entries_info, h]
  show Except.ok (sortEntries [(⟨.File, "a", some 5⟩ : EntryInfo), ⟨.File, "b", some 7⟩]) = _
  rw [hs]

/-! The claims. -/

/-- C1 (counterexample): sorting the two-element listing
`[Directory "d" (size 50), File "f" (size 100)]` yields the File entry
first, so the Directory entry does not precede the File entry, contrary to
the claim that every Directory entry precedes every File entry. -/
theorem spec_C1_counterexample :
    sortEntries [⟨.Directory, "d", some 50⟩, ⟨.File, "f", some 100⟩] =
      [⟨.File, "f", some 100⟩, ⟨.Directory, "d", some 50⟩] ∧
    (⟨.File, "f", some 100⟩ : EntryInfo).entry_type = .File ∧
    (⟨.Directory, "d", some 50⟩ : EntryInfo).entry_type = .Directory := by
  refine ⟨?_, rfl, rfl⟩
  simp [sortEntries, List.mergeSort, List.merge]
  decide

/-- C1 (amended): in the output of the sort, every File entry precedes
every Directory entry, regardless of their sizes: no Directory entry is
ever followed by a File entry. The comparator compares `a.entry_type`
against the constant `Directory` under the derived order
`File < Directory`, so the strict order driving the stable sort puts Files
first. -/
theorem spec_C1_files_precede_directories : ∀ xs : List EntryInfo,
    (sortEntries xs).Pairwise
      (fun a b => ¬(a.entry_type = .Directory ∧ b.entry_type = .File)) := by
  intro xs
  refine (sortEntries_pairwise xs).imp ?_
  intro a b hle
  rw [entryLe_iff] at hle
  rintro ⟨ha, hb⟩
  rcases hle with ⟨h1, h2⟩ | ⟨h1, h2⟩
  · rw [ha] at h1; cases h1
  · rw [ha, hb] at h1; cases h1

/-- C2: for a directory whose every nested listing and every dir-entry/
metadata read succeeds, `get_directory_size` returns `Ok` of the summed
metadata lengths of all File descendants; children that are neither files
nor directories contribute 0 and do not abort the aggregation of their
siblings (dropping such a child leaves the result unchanged). -/
theorem spec_C2_aggregate_total :
    (∀ children : List FsChild, allReadsOk children = true →
      get_directory_size (.dir (some children)) = .ok (specTotalFileSize children)) ∧
    (∀ (nm : String) (rest : List FsChild),
      get_directory_size (.dir (some ((nm, some .other) :: rest))) =
        get_directory_size (.dir (some rest))) := by
  constructor
  · intro children h
    exact dirSizeGo_ok_of_allReadsOk children h
  · intro nm rest
    simp [get_directory_size, dirSizeGo]

/-- Witness for C2 at a concrete tree: a 5-byte file, an unsupported entry
and a subdirectory holding a 7-byte file aggregate to 12 bytes. -/
theorem spec_C2_witness :
    get_directory_size (.dir (some [("a", some (.file 5)), ("x", some .other),
      ("s", some (.dir (some [("b", some (.file 7))])))])) = .ok 12 := by
  rw [spec_C2_aggregate_total.1
    [("a", some (.file 5)), ("x", some .other),
      ("s", some (.dir (some [("b", some (.file 7))])))]
    (by simp [allReadsOk])]
  simp [specTotalFileSize]

/-- C3 (counterexample): the pairwise comparator is not antisymmetric,
hence not a total order: comparing a Directory entry against a File entry
returns `eq`, while the swapped comparison returns `lt`. -/
theorem spec_C3_counterexample :
    compareEntries ⟨.Directory, "d", some 7⟩ ⟨.File, "f", some 7⟩ = .eq ∧
    compareEntries ⟨.File, "f", some 7⟩ ⟨.Directory, "d", some 7⟩ = .lt := by
  decide

/-- C3 (amended): the `Ordering`-valued comparator is not a total order,
but the strict relation `compare(a,b) == Less` that `sort_by`'s stable
sort actually consumes is a strict weak order: asymmetric, transitive, and
with transitive incomparability; consequently sorting is a deterministic
function producing a permutation of its input, including ties. -/
theorem spec_C3_strict_weak_order :
    (∀ a b : EntryInfo, entryIsLess a b = true → entryIsLess b a = false) ∧
    (∀ a b c : EntryInfo, entryIsLess a b = true → entryIsLess b c = true →
      entryIsLess a c = true) ∧
    (∀ a b c : EntryInfo, entryIsLess a b = false → entryIsLess b a = false →
      entryIsLess b c = false → entryIsLess c b = false →
      entryIsLess a c = false) ∧
    (∀ xs : List EntryInfo, (sortEntries xs).Perm xs) :=
  ⟨entryIsLess_asymm, entryIsLess_trans, entryIsLess_incomp_trans, sortEntries_perm⟩

/-- Witness for C3's amended theorem at concrete entries: a File entry of
size 100 is strictly less than a Directory entry of size 50, so by
asymmetry the converse comparison is false. -/
theorem spec_C3_witness :
    entryIsLess ⟨.Directory, "d", some 50⟩ ⟨.File, "f", some 100⟩ = false :=
  spec_C3_strict_weak_order.1 ⟨.File, "f", some 100⟩ ⟨.Directory, "d", some 50⟩
    (by decide)

/-- C4: from a browsing state with a listing of length N, a choice c with
1 <= c <= N descends into `listing[c-1]` when it is a Directory (pushing
the current directory onto the stack) and is a silent no-op when it is a
File; every other integer choice except -1 and 0 reports the
invalid-choice message and leaves the state unchanged. -/
theorem spec_C4_descend_and_invalid :
    ∀ (s : NavState) (listing : List EntryInfo) (c : Int),
    (1 ≤ c → c ≤ (listing.length : Int) →
      ((listing.getD (c - 1).toNat default).entry_type = .Directory →
        navStep s listing c =
          .cont ⟨(listing.getD (c - 1).toNat default).path,
            s.dir_stack ++ [s.current_dir]⟩ false) ∧
      ((listing.getD (c - 1).toNat default).entry_type = .File →
        navStep s listing c = .cont s false)) ∧
    (c ≠ -1 → c ≠ 0 → ¬(1 ≤ c ∧ c ≤ (listing.length : Int)) →
      navStep s listing c = .cont s true) := by
  intro s listing c
  constructor
  · intro h1 h2
    have hne1 : ¬(c = -1) := by omega
    have hne0 : ¬(c = 0) := by omega
    unfold navStep
    rw [if_neg hne1, if_neg hne0,
      if_pos (⟨h1, h2⟩ : 1 ≤ c ∧ c ≤ (listing.length : Int))]
    constructor <;> intro het
    · rw [if_pos het]
    · rw [if_neg (by rw [het]; decide)]
  · intro hne1 hne0 hr
    unfold navStep
    rw [if_neg hne1, if_neg hne0, if_neg hr]

/-- Witness for C4 at concrete states: choosing 1 on a one-Directory
listing descends and pushes, choosing 1 on a one-File listing is a no-op,
and choosing 7 reports the invalid-choice message and changes nothing. -/
theorem spec_C4_witness :
    navStep ⟨"r", ["r"]⟩ [⟨.Directory, "d", some 5⟩] 1 =
      .cont ⟨"d", ["r", "r"]⟩ false ∧
    navStep ⟨"r", ["r"]⟩ [⟨.File, "f", some 5⟩] 1 = .cont ⟨"r", ["r"]⟩ false ∧
    navStep ⟨"r", ["r"]⟩ [⟨.Directory, "d", some 5⟩] 7 =
      .cont ⟨"r", ["r"]⟩ true := by
  refine ⟨?_, ?_, ?_⟩
  · exact ((spec_C4_descend_and_invalid ⟨"r", ["r"]⟩ [⟨.Directory, "d", some 5⟩] 1).1
      (by decide) (by decide)).1 rfl
  · exact ((spec_C4_descend_and_invalid ⟨"r", ["r"]⟩ [⟨.File, "f", some 5⟩] 1).1
      (by decide) (by decide)).2 rfl
  · exact (spec_C4_descend_and_invalid ⟨"r", ["r"]⟩ [⟨.Directory, "d", some 5⟩] 7).2
      (by decide) (by decide) (by decide)

/-- C5: choice -1 with a non-empty history pops the most recently pushed
directory (the last element of the stack vector) and makes it current;
with an empty history it is a silent no-op, not an error. In particular
from `Browsing(d, [d])` a -1 yields `Browsing(d, [])` and a further -1
leaves the state unchanged. -/
theorem spec_C5_ascend : ∀ (s : NavState) (listing : List EntryInfo),
    (∀ prev, s.dir_stack.getLast? = some prev →
      navStep s listing (-1) = .cont ⟨prev, s.dir_stack.dropLast⟩ false) ∧
    (s.dir_stack = [] → navStep s listing (-1) = .cont s false) ∧
    (∀ d, navStep ⟨d, [d]⟩ listing (-1) = .cont ⟨d, []⟩ false) ∧
    (∀ d, navStep ⟨d, []⟩ listing (-1) = .cont ⟨d, []⟩ false) := by
  intro s listing
  refine ⟨?_, ?_, ?_, ?_⟩
  · intro prev h
    simp [navStep, h]
  · intro h
    simp [navStep, h]
  · intro d
    simp [navStep]
  · intro d
    simp [navStep]

/-- Witness for C5 at concrete states: from stack ["r", "p"] a -1 pops "p"
and makes it current, and from an empty stack a -1 changes nothing. -/
theorem spec_C5_witness :
    navStep ⟨"a", ["r", "p"]⟩ [] (-1) = .cont ⟨"p", ["r"]⟩ false ∧
    navStep ⟨"b", []⟩ [] (-1) = .cont ⟨"b", []⟩ false := by
  constructor
  · exact (spec_C5_ascend ⟨"a", ["r", "p"]⟩ []).1 "p" rfl
  · exact (spec_C5_ascend ⟨"b", []⟩ []).2.1 rfl

/-- C6: in any successfully returned (sorted) listing, among entries of the
same kind the sizes are descending: an earlier entry's size (absent
treated as 0) is at least a later one's. -/
theorem spec_C6_same_kind_descending : ∀ (d : FsNode) (l : List EntryInfo),
    get_entries_info d = .ok l →
    l.Pairwise (fun a b => a.entry_type = b.entry_type →
      b.size.getD 0 ≤ a.size.getD 0) := by
  intro d l h
  obtain ⟨children, es, rfl, he, rfl⟩ := get_entries_info_ok h
  refine (sortEntries_pairwise es).imp ?_
  intro a b hle hk
  rw [entryLe_iff] at hle
  rcases hle with ⟨h1, h2⟩ | ⟨h1, h2⟩
  · rw [h1, h2] at hk
    cases hk
  · exact h2

/-- Witness for C6: the listing of a directory holding a 5-byte file "a"
and a 7-byte file "b" comes back sorted as `[b, a]`, and that concrete
output is pairwise size-descending within equal kinds. -/
theorem spec_C6_witness :
    ([⟨.File, "b", some 7⟩, ⟨.File, "a", some 5⟩] : List EntryInfo).Pairwise
      (fun a b => a.entry_type = b.entry_type →
        b.size.getD 0 ≤ a.size.getD 0) :=
  spec_C6_same_kind_descending _ _ listing_pair_example

/-- C7: aggregation fails with an I/O error exactly when some reachable
read fails: `get_directory_size` on a listed directory returns `Ok` iff
every nested directory listing and every dir-entry/metadata read in the
subtree succeeds ("the directory cannot be listed" read recursively, as
the failure of a nested aggregate call propagates to the caller); when it
fails nothing but the error is returned, and an unlistable directory fails
outright. -/
theorem spec_C7_error_iff :
    (∀ children : List FsChild,
      (∃ n, get_directory_size (.dir (some children)) = .ok n) ↔
        allReadsOk children = true) ∧
    get_directory_size (.dir none) = .error .ioError := by
  constructor
  · intro children
    constructor
    · rintro ⟨n, hn⟩
      cases hra : allReadsOk children with
      | true => rfl
      | false =>
        rw [get_directory_size, dirSizeGo_error_of_not_allReadsOk children hra] at hn
        cases hn
    · intro h
      exact ⟨specTotalFileSize children, dirSizeGo_ok_of_allReadsOk children h⟩
  · rfl

/-- C8: an immediate child that is neither a file nor a directory makes
the whole listing fail with the "Unsupported entry type" error (when
reached it is exactly that error, and its presence anywhere among the
children rules out success), whereas `get_directory_size` silently skips
such a child nested in a subdirectory: it contributes 0 and its siblings
still count. -/
theorem spec_C8_unsupported_asymmetry :
    (∀ (nm : String) (rest : List FsChild),
      listEntries ((nm, some .other) :: rest) = .error .unsupported) ∧
    (∀ (children : List FsChild) (c : FsChild), c ∈ children →
      c.2 = some .other → ∀ l, get_entries_info (.dir (some children)) ≠ .ok l) ∧
    (∀ (nm : String) (rest : List FsChild),
      dirSizeGo ((nm, some .other) :: rest) = dirSizeGo rest) := by
  refine ⟨?_, ?_, ?_⟩
  · intro nm rest
    simp [listEntries, get_entry_info_unsupported]
  · intro children c hmem hc l hok
    obtain ⟨children2, es, heq, he, _⟩ := get_entries_info_ok hok
    have hch : children2 = children := by
      cases heq
      rfl
    obtain ⟨e, hce⟩ := listEntries_ok_child he c (hch ▸ hmem)
    obtain ⟨nm, m⟩ := c
    simp only at hc
    rw [hc] at hce
    rw [get_entry_info_unsupported] at hce
    cases hce
  · intro nm rest
    simp [dirSizeGo]

/-- Witness for C8 at concrete inputs: a single unsupported child fails the
listing with the unsupported-entry error and makes `get_entries_info`
fail, while aggregation of an unsupported child followed by a 5-byte file
equals aggregation of the file alone. -/
theorem spec_C8_witness :
    listEntries [("x", some FsNode.other)] = .error .unsupported ∧
    get_entries_info (.dir (some [("x", some FsNode.other)])) ≠ .ok [] ∧
    dirSizeGo [("x", some FsNode.other), ("a", some (.file 5))] =
      dirSizeGo [("a", some (.file 5))] :=
  ⟨spec_C8_unsupported_asymmetry.1 "x" [],
   spec_C8_unsupported_asymmetry.2.1 [("x", some FsNode.other)]
     ("x", some FsNode.other) (by simp) rfl [],
   spec_C8_unsupported_asymmetry.2.2 "x" [("a", some (.file 5))]⟩

/-- C9: the entry sort is idempotent: sorting an already-sorted sequence
yields the same sequence. -/
theorem spec_C9_sort_idempotent : ∀ xs : List EntryInfo,
    sortEntries (sortEntries xs) = sortEntries xs := by
  intro xs
  exact List.mergeSort_of_sorted (sortEntries_pairwise xs)

/-- C10: every entry of a successfully returned listing carries a present
size: files their metadata length, directories their aggregated total; the
absent-size branch is unreachable for entries the lister produces. -/
theorem spec_C10_sizes_present : ∀ (d : FsNode) (l : List EntryInfo),
    get_entries_info d = .ok l → ∀ e ∈ l, e.size.isSome = true := by
  intro d l h e he
  obtain ⟨children, es, rfl, hle, rfl⟩ := get_entries_info_ok h
  exact listEntries_ok_mem hle e ((sortEntries_perm es).mem_iff.mp he)

/-- Witness for C10: the 7-byte File entry of the concrete listing has a
present size. -/
theorem spec_C10_witness :
    (⟨.File, "b", some 7⟩ : EntryInfo).size.isSome = true :=
  spec_C10_sizes_present _ _ listing_pair_example ⟨.File, "b", some 7⟩ (by simp)

end FolderSize
